import Mathlib

/-!
Verification of the task-coordination and anti-detection safety core of the
BSS Pro Macro repository. The Python sources (`advanced_safety.py`,
`main_controller.py`, `core_systems.py`) are shallowly embedded: pure logic
becomes Lean functions over `ℚ`/`ℤ`/`ℕ`, random draws (`random.random()`,
`random.uniform`, `random.randint`) become explicit oracle parameters with
hypotheses describing their ranges, and platform-dependent probes
(pointer position, pressed keys, process list, CPU/memory samples, clock)
become explicit inputs.
-/

/-! ## Randomization Service (`advanced_safety.py`, class `BehaviorRandomizer`)

`random.uniform(a, b)` in CPython is `a + (b-a) * random.random()` where
`random.random()` draws from `[0, 1)`.  We embed it with the unit draw `u`
passed explicitly. -/

/-- Embedding of `random.uniform(a, b)` where `u` is the underlying
`random.random()` draw, assumed to lie in `[0, 1)`. -/
def uniform (a b u : ℚ) : ℚ := a + (b - a) * u

/-- Embedding of `BehaviorRandomizer.randomize_timing`: if randomization is
disabled the base time is returned unchanged, otherwise it is scaled by a
uniform draw from `[1 - variance, 1 + variance)`.  `variance` is the config
value `safety.pause_randomization`; `u` is the unit random draw. -/
def randomize_timing (randomization_enabled : Bool) (variance base_time u : ℚ) : ℚ :=
  if randomization_enabled = false then base_time
  else base_time * uniform (1 - variance) (1 + variance) u

/-- C5: for every variance `v ∈ [0,1]` and base `b > 0`, the timing jitter
returned by `randomize_timing` lies in `[b*(1-v), b*(1+v)]`; with the
`randomization_enabled` flag false it returns `b` unchanged, exactly. -/
theorem C5_randomize_timing_bounds (v b u : ℚ)
    (hv0 : 0 ≤ v) (hv1 : v ≤ 1) (hb : 0 < b) (hu0 : 0 ≤ u) (hu1 : u < 1) :
    randomize_timing false v b u = b ∧
    b * (1 - v) ≤ randomize_timing true v b u ∧
    randomize_timing true v b u ≤ b * (1 + v) := by
  refine ⟨rfl, ?_, ?_⟩
  · unfold randomize_timing uniform
    simp only [Bool.true_eq_false, if_false]
    nlinarith [mul_nonneg hv0 hu0, mul_pos hb (by linarith : (0:ℚ) < 1)]
  · unfold randomize_timing uniform
    simp only [Bool.true_eq_false, if_false]
    nlinarith [mul_nonneg hv0 (by linarith : (0:ℚ) ≤ 1 - u)]

/-- Witness for C5 at `v = 1/2`, `b = 2`, `u = 1/2`. -/
theorem C5_randomize_timing_bounds_witness :
    (0:ℚ) ≤ 1/2 ∧ (1:ℚ)/2 ≤ 1 ∧ (0:ℚ) < 2 ∧ (0:ℚ) ≤ 1/2 ∧ (1:ℚ)/2 < 1 ∧
    (randomize_timing false (1/2) 2 (1/2) = 2 ∧
     2 * (1 - 1/2) ≤ randomize_timing true (1/2) 2 (1/2) ∧
     randomize_timing true (1/2) 2 (1/2) ≤ 2 * (1 + 1/2)) :=
  ⟨by norm_num, by norm_num, by norm_num, by norm_num, by norm_num,
   C5_randomize_timing_bounds (1/2) 2 (1/2) (by norm_num) (by norm_num)
     (by norm_num) (by norm_num) (by norm_num)⟩

/-! ## Break Scheduler (`advanced_safety.py`, class `AdvancedSafetyManager`)

`generate_break_schedule` draws `break_count = random.randint(3, 8)` entries;
entry `i`'s time is `random.uniform(i*(D/n), (i+1)*(D/n))` past the current
time with `D = 8*3600` the hard-coded session duration, and its duration is
uniform in the configured `[break_duration_min, break_duration_max]`.  Times
are modelled relative to the generation time (the Python code stores
`current_time + ...`). -/

/-- One entry of the break schedule (`{'time', 'duration', 'taken'}`). -/
structure ScheduledBreak where
  time : ℚ
  duration : ℚ
  taken : Bool
deriving DecidableEq

/-- Hard-coded nominal session window of `generate_break_schedule`:
`session_duration = 8 * 3600` seconds. -/
def session_duration : ℚ := 8 * 3600

/-- Embedding of `AdvancedSafetyManager.generate_break_schedule`.
`break_count` is the `random.randint(3, 8)` draw; `ut i` and `ud i` are the
unit draws underlying the two `random.uniform` calls of iteration `i`. -/
def generate_break_schedule (break_count : ℕ)
    (break_duration_min break_duration_max : ℚ) (ut ud : ℕ → ℚ) :
    List ScheduledBreak :=
  (List.range break_count).map (fun (i : ℕ) =>
    { time := uniform ((i : ℚ) * (session_duration / break_count))
        (((i : ℚ) + 1) * (session_duration / break_count)) (ut i),
      duration := uniform break_duration_min break_duration_max (ud i),
      taken := false })

/-- Embedding of `AdvancedSafetyManager.take_scheduled_break`: marks the
entry as taken (the randomized blocking sleep is a side effect with no
bearing on the schedule state). -/
def take_scheduled_break (b : ScheduledBreak) : ScheduledBreak :=
  { b with taken := true }

/-- Embedding of `AdvancedSafetyManager.check_scheduled_breaks`: scan the
schedule in order for the first entry that is untaken and due
(`current_time >= entry.time`), take it, and report it.  The Python code
returns `True`/`False` and mutates the list in place; the embedding returns
the index of the entry taken (`none` when no break fired) together with the
updated schedule. -/
def check_scheduled_breaks (current_time : ℚ) :
    List ScheduledBreak → Option ℕ × List ScheduledBreak
  | [] => (none, [])
  | b :: rest =>
    if b.taken = false ∧ b.time ≤ current_time then
      (some 0, take_scheduled_break b :: rest)
    else
      let r := check_scheduled_breaks current_time rest
      (r.1.map (· + 1), b :: r.2)

/-- A `random.uniform(a, b)` value lies in `[a, b)` when `a < b` and the unit
draw lies in `[0, 1)`. -/
theorem uniform_mem (a b u : ℚ) (hab : a < b) (hu0 : 0 ≤ u) (hu1 : u < 1) :
    a ≤ uniform a b u ∧ uniform a b u < b := by
  constructor
  · unfold uniform; nlinarith
  · unfold uniform; nlinarith

/-- C6: every generated break schedule has between 3 and 8 entries; entry `i`
is drawn within slot `i` of the equal-width partition of the 8-hour window;
hence all scheduled times lie in `[0, session_duration)` relative to
generation time, and the entries are non-decreasing in scheduled time. -/
theorem C6_break_schedule_shape (break_count : ℕ) (dmin dmax : ℚ) (ut ud : ℕ → ℚ)
    (hn3 : 3 ≤ break_count) (hn8 : break_count ≤ 8)
    (hu : ∀ i, 0 ≤ ut i ∧ ut i < 1) :
    (3 ≤ (generate_break_schedule break_count dmin dmax ut ud).length ∧
      (generate_break_schedule break_count dmin dmax ut ud).length ≤ 8) ∧
    (∀ (i : ℕ) (e : ScheduledBreak),
      (generate_break_schedule break_count dmin dmax ut ud)[i]? = some e →
      (i : ℚ) * (session_duration / break_count) ≤ e.time ∧
      e.time < ((i : ℚ) + 1) * (session_duration / break_count)) ∧
    (∀ e ∈ generate_break_schedule break_count dmin dmax ut ud,
      0 ≤ e.time ∧ e.time < session_duration) ∧
    List.Pairwise (fun a b => a.time ≤ b.time)
      (generate_break_schedule break_count dmin dmax ut ud) := by
  have hnpos : (0:ℚ) < break_count := by
    have h0 : 0 < break_count := lt_of_lt_of_le (by norm_num) hn3
    exact_mod_cast h0
  have hc : 0 < session_duration / (break_count:ℚ) := by
    apply div_pos _ hnpos
    norm_num [session_duration]
  have hslot : ∀ i : ℕ,
      (i:ℚ) * (session_duration / break_count) ≤
        uniform ((i:ℚ) * (session_duration / break_count))
          (((i:ℚ) + 1) * (session_duration / break_count)) (ut i) ∧
      uniform ((i:ℚ) * (session_duration / break_count))
          (((i:ℚ) + 1) * (session_duration / break_count)) (ut i) <
        ((i:ℚ) + 1) * (session_duration / break_count) := by
    intro i
    apply uniform_mem _ _ _ _ (hu i).1 (hu i).2
    nlinarith [hc]
  refine ⟨?_, ?_, ?_, ?_⟩
  · constructor
    · simpa [generate_break_schedule] using hn3
    · simpa [generate_break_schedule] using hn8
  · intro i e he
    by_cases hi : i < break_count
    · simp only [generate_break_schedule, List.getElem?_map, List.getElem?_range,
        hi, if_pos, Option.map_some'] at he
      rw [← Option.some_inj.mp he]
      exact hslot i
    · exfalso
      simp only [generate_break_schedule, List.getElem?_map, Option.map_eq_some'] at he
      obtain ⟨a, ha, -⟩ := he
      rw [List.getElem?_eq_none (by simpa using Nat.le_of_not_lt hi)] at ha
      cases ha
  · intro e he
    simp only [generate_break_schedule, List.mem_map, List.mem_range] at he
    obtain ⟨i, hi, hfe⟩ := he
    subst hfe
    obtain ⟨h1, h2⟩ := hslot i
    have hcast : ((i:ℚ) + 1) ≤ (break_count:ℚ) := by exact_mod_cast hi
    have hle : ((i:ℚ) + 1) * (session_duration / break_count) ≤
        (break_count:ℚ) * (session_duration / break_count) :=
      mul_le_mul_of_nonneg_right hcast hc.le
    have heq : (break_count:ℚ) * (session_duration / break_count) = session_duration := by
      field_simp
    constructor
    · have h0 : (0:ℚ) ≤ (i:ℚ) * (session_duration / break_count) := by positivity
      exact le_trans h0 h1
    · dsimp only
      linarith
  · rw [generate_break_schedule, List.pairwise_map]
    refine (List.pairwise_lt_range break_count).imp ?_
    intro i j hij
    simp only
    obtain ⟨hi1, hi2⟩ := hslot i
    obtain ⟨hj1, hj2⟩ := hslot j
    have hcast : ((i:ℚ) + 1) ≤ (j:ℚ) := by exact_mod_cast hij
    have hle : ((i:ℚ) + 1) * (session_duration / break_count) ≤
        (j:ℚ) * (session_duration / break_count) :=
      mul_le_mul_of_nonneg_right hcast hc.le
    linarith

/-- Witness for C6 at `break_count = 3` with all unit draws zero. -/
theorem C6_break_schedule_shape_witness :
    3 ≤ 3 ∧ 3 ≤ 8 ∧ (∀ i : ℕ, 0 ≤ (0:ℚ) ∧ (0:ℚ) < 1) ∧
    List.Pairwise (fun a b => a.time ≤ b.time)
      (generate_break_schedule 3 60 120 (fun _ => 0) (fun _ => 0)) :=
  ⟨by norm_num, by norm_num, fun _ => ⟨by norm_num, by norm_num⟩,
   (C6_break_schedule_shape 3 60 120 (fun _ => 0) (fun _ => 0)
     (by norm_num) (by norm_num) (fun _ => ⟨by norm_num, by norm_num⟩)).2.2.2⟩

/-- The schedule length is preserved by `check_scheduled_breaks`. -/
theorem check_scheduled_breaks_length (current_time : ℚ) (sched : List ScheduledBreak) :
    (check_scheduled_breaks current_time sched).2.length = sched.length := by
  induction sched with
  | nil => rfl
  | cons hd tl ih =>
    rw [check_scheduled_breaks]
    by_cases hcond : hd.taken = false ∧ hd.time ≤ current_time
    · rw [if_pos hcond]
      simp
    · rw [if_neg hcond]
      simpa using ih

/-- The entry selected by `check_scheduled_breaks` was untaken and due. -/
theorem check_scheduled_breaks_sel (current_time : ℚ) :
    ∀ (sched : List ScheduledBreak) (i : ℕ) (b : ScheduledBreak),
      (check_scheduled_breaks current_time sched).1 = some i →
      sched[i]? = some b → b.taken = false ∧ b.time ≤ current_time := by
  intro sched
  induction sched with
  | nil => intro i b hsel _; simp [check_scheduled_breaks] at hsel
  | cons hd tl ih =>
    intro i b hsel hget
    rw [check_scheduled_breaks] at hsel
    by_cases hcond : hd.taken = false ∧ hd.time ≤ current_time
    · rw [if_pos hcond] at hsel
      have hi : i = 0 := by simpa using hsel.symm
      subst hi
      simp only [List.getElem?_cons_zero] at hget
      rw [← Option.some_inj.mp hget]
      exact hcond
    · rw [if_neg hcond] at hsel
      simp only at hsel
      obtain ⟨j, hj, hji⟩ := Option.map_eq_some'.mp hsel
      subst hji
      simp only [List.getElem?_cons_succ] at hget
      exact ih j b hj hget

/-- After `check_scheduled_breaks` selects an entry, that entry is marked
taken in the updated schedule. -/
theorem check_scheduled_breaks_flags (current_time : ℚ) :
    ∀ (sched : List ScheduledBreak) (i : ℕ),
      (check_scheduled_breaks current_time sched).1 = some i →
      ((check_scheduled_breaks current_time sched).2)[i]?.map (fun e => e.taken) =
        some true := by
  intro sched
  induction sched with
  | nil => intro i hsel; simp [check_scheduled_breaks] at hsel
  | cons hd tl ih =>
    intro i hsel
    rw [check_scheduled_breaks] at hsel ⊢
    by_cases hcond : hd.taken = false ∧ hd.time ≤ current_time
    · rw [if_pos hcond] at hsel ⊢
      have hi : i = 0 := by simpa using hsel.symm
      subst hi
      simp [take_scheduled_break]
    · rw [if_neg hcond] at hsel ⊢
      simp only at hsel ⊢
      obtain ⟨j, hj, hji⟩ := Option.map_eq_some'.mp hsel
      subst hji
      simpa [List.getElem?_cons_succ] using ih j hj

/-- Taken flags are monotone under `check_scheduled_breaks`: an entry whose
flag is already true keeps it true in the updated schedule. -/
theorem check_scheduled_breaks_mono (current_time : ℚ) :
    ∀ (sched : List ScheduledBreak) (j : ℕ) (b c : ScheduledBreak),
      sched[j]? = some b → ((check_scheduled_breaks current_time sched).2)[j]? = some c →
      b.taken = true → c.taken = true := by
  intro sched
  induction sched with
  | nil => intro j b c hb _ _; simp at hb
  | cons hd tl ih =>
    intro j b c hb hc htk
    rw [check_scheduled_breaks] at hc
    by_cases hcond : hd.taken = false ∧ hd.time ≤ current_time
    · rw [if_pos hcond] at hc
      cases j with
      | zero =>
        simp only [List.getElem?_cons_zero, Option.some_inj] at hb hc
        rw [← hc]
        simp [take_scheduled_break]
      | succ k =>
        simp only [List.getElem?_cons_succ] at hb hc
        have hbc : b = c := Option.some_inj.mp (hb.symm.trans hc)
        rw [← hbc]
        exact htk
    · rw [if_neg hcond] at hc
      simp only at hc
      cases j with
      | zero =>
        simp only [List.getElem?_cons_zero, Option.some_inj] at hb hc
        rw [← hc, hb]
        exact htk
      | succ k =>
        simp only [List.getElem?_cons_succ] at hb hc
        exact ih k b c hb hc htk

/-- C7: the break-due query never selects an entry whose `taken` flag is
already true; taking a break flips that entry's flag from false to true;
flags already true are never reset by the query; and once taken, the same
entry is never selected by a later query. -/
theorem C7_break_taken_invariants (current_time : ℚ) (sched : List ScheduledBreak) :
    (∀ (i : ℕ) (b : ScheduledBreak),
      (check_scheduled_breaks current_time sched).1 = some i →
      sched[i]? = some b → b.taken = false) ∧
    (∀ i : ℕ, (check_scheduled_breaks current_time sched).1 = some i →
      ((check_scheduled_breaks current_time sched).2)[i]?.map (fun e => e.taken) =
        some true) ∧
    (∀ (j : ℕ) (b c : ScheduledBreak),
      sched[j]? = some b → ((check_scheduled_breaks current_time sched).2)[j]? = some c →
      b.taken = true → c.taken = true) ∧
    (∀ (later : ℚ) (i : ℕ),
      (check_scheduled_breaks current_time sched).1 = some i →
      (check_scheduled_breaks later (check_scheduled_breaks current_time sched).2).1 ≠
        some i) := by
  refine ⟨fun i b hsel hget => (check_scheduled_breaks_sel current_time sched i b hsel hget).1,
    fun i hsel => check_scheduled_breaks_flags current_time sched i hsel,
    fun j b c hb hc htk => check_scheduled_breaks_mono current_time sched j b c hb hc htk,
    fun later i hsel hagain => ?_⟩
  have hflag := check_scheduled_breaks_flags current_time sched i hsel
  obtain ⟨c, hc, hct⟩ := Option.map_eq_some'.mp hflag
  have hcf := (check_scheduled_breaks_sel later
    (check_scheduled_breaks current_time sched).2 i c hagain hc).1
  rw [hct] at hcf
  cases hcf

/-- Witness for C7 on the one-entry schedule `[{time 10, duration 5, untaken}]`
queried at time 20, then re-queried at time 30. -/
theorem C7_break_taken_invariants_witness :
    (check_scheduled_breaks 20 [⟨10, 5, false⟩]).1 = some 0 ∧
    (check_scheduled_breaks 30 (check_scheduled_breaks 20 [⟨10, 5, false⟩]).2).1 ≠
      some 0 :=
  ⟨by decide,
   (C7_break_taken_invariants 20 [⟨10, 5, false⟩]).2.2.2 30 0 (by decide)⟩

/-! ## Action Journal / Pattern Breaker (`advanced_safety.py`, class `PatternBreaker`) -/

/-- One entry of the pattern breaker's action history
(`{'action', 'timestamp'}`). -/
structure ActionRecord where
  action : String
  timestamp : ℚ
deriving DecidableEq

/-- `PatternBreaker.pattern_threshold`, hard-coded to 5. -/
def pattern_threshold : ℕ := 5

/-- Embedding of `PatternBreaker.record_action`: append the action stamped
with the current time, then keep only entries strictly newer than
`now - 300` (the 5-minute retention window). -/
def record_action (now : ℚ) (action : String)
    (action_history : List ActionRecord) : List ActionRecord :=
  (action_history ++ [({ action := action, timestamp := now } : ActionRecord)]).filter
    (fun a => now - 300 < a.timestamp)

/-- Embedding of `PatternBreaker.should_break_pattern`: false when the
journal holds fewer than `pattern_threshold` entries, otherwise true iff the
most recent `pattern_threshold` actions are all identical (the Python code
tests `len(set(recent_actions)) == 1`; `List.dedup` plays the role of
`set`). -/
def should_break_pattern (action_history : List ActionRecord) : Bool :=
  if action_history.length < pattern_threshold then false
  else
    let recent_actions :=
      (action_history.drop (action_history.length - pattern_threshold)).map
        (fun a => a.action)
    recent_actions.dedup.length == 1

/-- A nonempty list has a one-element `dedup` exactly when all its elements
are equal. -/
theorem dedup_length_eq_one {l : List String} (hne : l ≠ []) :
    l.dedup.length = 1 ↔ ∀ x ∈ l, ∀ y ∈ l, x = y := by
  constructor
  · intro h x hx y hy
    obtain ⟨a, ha⟩ := List.length_eq_one.mp h
    have hx2 : x ∈ l.dedup := List.mem_dedup.mpr hx
    have hy2 : y ∈ l.dedup := List.mem_dedup.mpr hy
    rw [ha] at hx2 hy2
    simp only [List.mem_singleton] at hx2 hy2
    rw [hx2, hy2]
  · intro h
    obtain ⟨a, ha⟩ := List.exists_mem_of_ne_nil l hne
    have hsub : ∀ x ∈ l.dedup, x = a := fun x hx => h x (List.mem_dedup.mp hx) a ha
    have hane : a ∈ l.dedup := List.mem_dedup.mpr ha
    cases hdl : l.dedup with
    | nil => rw [hdl] at hane; cases hane
    | cons x t =>
      cases t with
      | nil => rfl
      | cons y t2 =>
        exfalso
        have hnd := l.nodup_dedup
        rw [hdl] at hnd
        have hx : x = a := hsub x (by rw [hdl]; simp)
        have hy : y = a := hsub y (by rw [hdl]; simp)
        rw [List.nodup_cons] at hnd
        exact hnd.1 (by rw [hx, hy]; simp)

/-- Action id used in the C8 scenario: the repeated action. -/
def farm_action : String := "farm_field"

/-- Action id used in the C8 scenario: the sixth, different action. -/
def look_action : String := "look_around"

/-- Journal obtained by recording `farm_action` five times at seconds
0,1,2,3,4 (all within the 300 s retention window). -/
def journal_example : List ActionRecord :=
  record_action 4 farm_action (record_action 3 farm_action
    (record_action 2 farm_action (record_action 1 farm_action
      (record_action 0 farm_action []))))

/-- C8: `should_break_pattern` is true iff the journal holds at least 5
entries and the most recent 5 all carry the same action id; in particular
after recording 5 identical actions within the retention window it returns
true, and recording a 6th, different action makes it return false again. -/
theorem C8_pattern_detection (action_history : List ActionRecord) :
    (should_break_pattern action_history = true ↔
      (pattern_threshold ≤ action_history.length ∧
        ∀ x ∈ (action_history.drop (action_history.length - pattern_threshold)).map
            (fun a => a.action),
          ∀ y ∈ (action_history.drop (action_history.length - pattern_threshold)).map
            (fun a => a.action), x = y)) ∧
    should_break_pattern journal_example = true ∧
    should_break_pattern (record_action 5 look_action journal_example) = false := by
  have hj : journal_example = [⟨farm_action, 0⟩, ⟨farm_action, 1⟩, ⟨farm_action, 2⟩,
      ⟨farm_action, 3⟩, ⟨farm_action, 4⟩] := by
    norm_num [journal_example, record_action]
  have hj6 : record_action 5 look_action journal_example =
      [⟨farm_action, 0⟩, ⟨farm_action, 1⟩, ⟨farm_action, 2⟩, ⟨farm_action, 3⟩,
       ⟨farm_action, 4⟩, ⟨look_action, 5⟩] := by
    rw [hj]
    norm_num [record_action]
  refine ⟨?_, by rw [hj]; decide, by rw [hj6]; decide⟩
  constructor
  · intro h
    unfold should_break_pattern at h
    by_cases hlen : action_history.length < pattern_threshold
    · rw [if_pos hlen] at h; cases h
    · rw [if_neg hlen] at h
      simp only [beq_iff_eq] at h
      refine ⟨Nat.not_lt.mp hlen, ?_⟩
      have hne : (action_history.drop (action_history.length - pattern_threshold)).map
          (fun a => a.action) ≠ [] := by
        have hl : ((action_history.drop
            (action_history.length - pattern_threshold)).map
            (fun a => a.action)).length = pattern_threshold := by
          simp only [List.length_map, List.length_drop]
          omega
        intro hcon
        rw [hcon] at hl
        simp [pattern_threshold] at hl
      exact (dedup_length_eq_one hne).mp h
  · rintro ⟨h1, h2⟩
    unfold should_break_pattern
    rw [if_neg (Nat.not_lt.mpr h1)]
    simp only [beq_iff_eq]
    have hne : (action_history.drop (action_history.length - pattern_threshold)).map
        (fun a => a.action) ≠ [] := by
      have hl : ((action_history.drop
          (action_history.length - pattern_threshold)).map
          (fun a => a.action)).length = pattern_threshold := by
        simp only [List.length_map, List.length_drop]
        omega
      intro hcon
      rw [hcon] at hl
      simp [pattern_threshold] at hl
    exact (dedup_length_eq_one hne).mpr h2

/-! ## Emergency Trigger Evaluator (`advanced_safety.py`, class
`AdvancedSafetyManager`) -/

/-- The four screen corners in pixel coordinates for a
`screen_width × screen_height` display, in the order listed in
`check_mouse_corner_trigger`. -/
def corners (screen_width screen_height : ℤ) : List (ℤ × ℤ) :=
  [(0, 0), (screen_width - 1, 0), (0, screen_height - 1),
   (screen_width - 1, screen_height - 1)]

/-- The `corner_threshold = 5` pixel tolerance of
`check_mouse_corner_trigger`. -/
def corner_threshold : ℤ := 5

/-- Embedding of `AdvancedSafetyManager.check_mouse_corner_trigger`: fires
when the pointer at `(x, y)` is within `corner_threshold` of some corner in
both axes. -/
def check_mouse_corner_trigger (x y screen_width screen_height : ℤ) : Bool :=
  (corners screen_width screen_height).any
    (fun c => decide (|x - c.1| ≤ corner_threshold) &&
      decide (|y - c.2| ≤ corner_threshold))

/-- C4: the failsafe-position trigger fires exactly when the pointer is
within 5 pixels, in both axes, of one of the four screen corners; in
particular it fires for a pointer at `(0,0)` on a 1920x1080 screen. -/
theorem C4_mouse_corner_characterization (x y w h : ℤ) :
    (check_mouse_corner_trigger x y w h = true ↔
      ∃ c ∈ corners w h, |x - c.1| ≤ 5 ∧ |y - c.2| ≤ 5) ∧
    check_mouse_corner_trigger 0 0 1920 1080 = true := by
  refine ⟨?_, by decide⟩
  simp [check_mouse_corner_trigger, corner_threshold, List.any_eq_true]

/-- Kinds of emergency triggers (the `'type'` field of
`setup_emergency_triggers`). -/
inductive TriggerType
  | mouse_corner
  | key_combo
  | process_monitor
  | system_resource
  | time_limit
deriving DecidableEq

/-- One emergency trigger: its kind, its `active` flag, the key list (used
by `key_combo`) and the time limit in seconds (used by `time_limit`). -/
structure EmergencyTrigger where
  type : TriggerType
  active : Bool
  keys : List String
  limit : ℚ
deriving DecidableEq

/-- Key name `'ctrl'` of the emergency key combination. -/
def ctrl_key : String := "ctrl"

/-- Key name `'alt'` of the emergency key combination. -/
def alt_key : String := "alt"

/-- Key name `'del'` of the emergency key combination. -/
def del_key : String := "del"

/-- Embedding of `AdvancedSafetyManager.setup_emergency_triggers`: the
static trigger list, in source order, all active, with the ctrl-alt-del key
combo and the `10 * 3600` second time limit. -/
def setup_emergency_triggers : List EmergencyTrigger :=
  [⟨.mouse_corner, true, [], 0⟩,
   ⟨.key_combo, true, [ctrl_key, alt_key, del_key], 0⟩,
   ⟨.process_monitor, true, [], 0⟩,
   ⟨.system_resource, true, [], 0⟩,
   ⟨.time_limit, true, [], 10 * 3600⟩]

/-- Platform inputs consulted by the trigger checks: pointer position and
screen size, which keys are held, whether the process scan found a
deny-listed process (`check_process_monitor_trigger`), whether the sampled
CPU/memory load exceeded the stop thresholds
(`check_system_resource_trigger`), and the elapsed runtime used by
`check_time_limit_trigger`. -/
structure TriggerEnv where
  mouse_x : ℤ
  mouse_y : ℤ
  screen_width : ℤ
  screen_height : ℤ
  key_pressed : String → Bool
  hostile_process_found : Bool
  resource_exceeded : Bool
  runtime : ℚ

/-- Embedding of `check_key_combo_trigger`: all configured keys are held. -/
def check_key_combo_trigger (env : TriggerEnv) (keys : List String) : Bool :=
  keys.all env.key_pressed

/-- Embedding of `check_time_limit_trigger`: the elapsed runtime has reached
the limit. -/
def check_time_limit_trigger (env : TriggerEnv) (limit_seconds : ℚ) : Bool :=
  decide (limit_seconds ≤ env.runtime)

/-- The per-kind check dispatched inside the `check_emergency_triggers`
loop body. -/
def trigger_fires (env : TriggerEnv) (t : EmergencyTrigger) : Bool :=
  match t.type with
  | .mouse_corner =>
    check_mouse_corner_trigger env.mouse_x env.mouse_y env.screen_width
      env.screen_height
  | .key_combo => check_key_combo_trigger env t.keys
  | .process_monitor => env.hostile_process_found
  | .system_resource => env.resource_exceeded
  | .time_limit => check_time_limit_trigger env t.limit

/-- Embedding of `AdvancedSafetyManager.check_emergency_triggers`: walk the
trigger list in order, skip inactive triggers, stop at the first active
trigger that fires.  The Python function returns `True` after logging which
trigger fired; the embedding reports that trigger's kind (`none` when no
trigger fires). -/
def check_emergency_triggers (env : TriggerEnv) :
    List EmergencyTrigger → Option TriggerType
  | [] => none
  | t :: rest =>
    if t.active = false then check_emergency_triggers env rest
    else if trigger_fires env t then some t.type
    else check_emergency_triggers env rest

/-- C3: on the trigger set installed by `setup_emergency_triggers`,
evaluation proceeds in the fixed order failsafe position, kill-combo,
hostile process, resource exhaustion, time limit and reports the kind of the
first firing trigger; a trigger with `active = false` is skipped; and when
every trigger is disarmed the evaluation reports `none` regardless of the
environment. -/
theorem C3_trigger_evaluation_order :
    (∀ env : TriggerEnv,
      check_emergency_triggers env setup_emergency_triggers =
        if check_mouse_corner_trigger env.mouse_x env.mouse_y env.screen_width
            env.screen_height then some .mouse_corner
        else if check_key_combo_trigger env [ctrl_key, alt_key, del_key] then
          some .key_combo
        else if env.hostile_process_found then some .process_monitor
        else if env.resource_exceeded then some .system_resource
        else if check_time_limit_trigger env (10 * 3600) then some .time_limit
        else none) ∧
    (∀ (env : TriggerEnv) (ts : List EmergencyTrigger) (t : EmergencyTrigger),
      t.active = false →
      check_emergency_triggers env (t :: ts) = check_emergency_triggers env ts) ∧
    (∀ (env : TriggerEnv) (ts : List EmergencyTrigger),
      (∀ t ∈ ts, t.active = false) → check_emergency_triggers env ts = none) := by
  refine ⟨fun env => rfl, ?_, ?_⟩
  · intro env ts t ht
    simp [check_emergency_triggers, ht]
  · intro env ts hall
    induction ts with
    | nil => rfl
    | cons t rest ih =>
      have ht : t.active = false := hall t (List.mem_cons_self t rest)
      simp only [check_emergency_triggers, ht, if_pos]
      exact ih (fun s hs => hall s (List.mem_cons_of_mem t hs))

/-- The trigger set with every trigger disarmed, used to witness C3. -/
def disarmed_triggers : List EmergencyTrigger :=
  [⟨.mouse_corner, false, [], 0⟩,
   ⟨.key_combo, false, [ctrl_key, alt_key, del_key], 0⟩,
   ⟨.process_monitor, false, [], 0⟩,
   ⟨.system_resource, false, [], 0⟩,
   ⟨.time_limit, false, [], 10 * 3600⟩]

/-- An environment in which every trigger condition holds: pointer at the
corner, all keys held, hostile process found, resources exceeded, runtime
past every limit. -/
def firing_env : TriggerEnv :=
  ⟨0, 0, 1920, 1080, fun _ => true, true, true, 999999999⟩

/-- Witness for C3: with every trigger disarmed, nothing fires even in an
environment where every condition holds. -/
theorem C3_trigger_evaluation_order_witness :
    (∀ t ∈ disarmed_triggers, t.active = false) ∧
    check_emergency_triggers firing_env disarmed_triggers = none :=
  ⟨by decide, C3_trigger_evaluation_order.2.2 firing_env disarmed_triggers (by decide)⟩

/-- The full state consulted by `check_safety_conditions`: the
`general.safety_enabled` config flag, the installed trigger list and
environment, whether a scheduled break fired (`check_scheduled_breaks`),
whether system resources are adequate (`check_system_resources`), and
whether activity patterns pass (`check_activity_patterns`, constantly true
in the source). -/
structure SafetyState where
  safety_enabled : Bool
  emergency_triggers : List EmergencyTrigger
  env : TriggerEnv
  break_fired : Bool
  resources_adequate : Bool
  patterns_ok : Bool

/-- Embedding of `AdvancedSafetyManager.check_safety_conditions`: returns
true immediately when safety is disabled; otherwise false as soon as an
emergency trigger fires, a scheduled break fires, resources are inadequate
or activity patterns fail. -/
def check_safety_conditions (s : SafetyState) : Bool :=
  if s.safety_enabled = false then true
  else if (check_emergency_triggers s.env s.emergency_triggers).isSome then false
  else if s.break_fired then false
  else if s.resources_adequate = false then false
  else if s.patterns_ok = false then false
  else true

/-- C10: with `general.safety_enabled` false, `check_safety_conditions`
returns true for every state — independently of the trigger list, the
trigger environment (including a runtime past the 10-hour limit), scheduled
breaks, resource checks and pattern checks — so none of those conditions can
make the orchestrator's safety gate fail in that mode. -/
theorem C10_safety_disabled_gate (triggers : List EmergencyTrigger)
    (env : TriggerEnv) (break_fired resources_adequate patterns_ok : Bool) :
    check_safety_conditions
      ⟨false, triggers, env, break_fired, resources_adequate, patterns_ok⟩ = true :=
  rfl

/-! ## Task Cycle Orchestrator (`main_controller.py`, class `MacroController`)

`execute_macro_cycle` dispatches the six task handlers in fixed priority
order, each guarded by its config enable flag (maintenance is
unconditional).  Every handler body sits in its own `try/except` that only
logs the exception; the handlers' interactions with the game are abstracted
to the single observable that matters here: whether the body raises. -/

/-- The six task categories of one macro cycle, in dispatch order. -/
inductive TaskKind
  | quests
  | farming
  | mobs
  | planters
  | boosts
  | maintenance
deriving DecidableEq

/-- Dispatch order of `execute_macro_cycle`. -/
def cycle_order : List TaskKind :=
  [.quests, .farming, .mobs, .planters, .boosts, .maintenance]

/-- Whether a handler body raises an exception during this cycle. -/
inductive HandlerOutcome
  | ok
  | raises
deriving DecidableEq

/-- The per-feature enable flags of the configuration sections consulted by
`execute_macro_cycle` (`quests.enabled`, `farming.enabled`, `mobs.enabled`,
`planters.enabled`, `boosts.enabled`). -/
structure MacroConfig where
  quests_enabled : Bool
  farming_enabled : Bool
  mobs_enabled : Bool
  planters_enabled : Bool
  boosts_enabled : Bool
deriving DecidableEq

/-- The enable guard in front of each handler call; `handle_maintenance` is
called unconditionally. -/
def task_enabled (cfg : MacroConfig) : TaskKind → Bool
  | .quests => cfg.quests_enabled
  | .farming => cfg.farming_enabled
  | .mobs => cfg.mobs_enabled
  | .planters => cfg.planters_enabled
  | .boosts => cfg.boosts_enabled
  | .maintenance => true

/-- The orchestrator state observable across one cycle: which handlers were
invoked, which handler failures were logged (`logging.error` inside the
handlers' own `except` blocks), and the session's
`session_stats['errors_encountered']` counter. -/
structure CycleState where
  ran : List TaskKind
  error_log : List TaskKind
  errors_encountered : ℕ
deriving DecidableEq

/-- Embedding of one wrapped handler call (`handle_quests`,
`handle_farming`, ...): the handler runs; if its body raises, the exception
is caught by the handler's own `except` clause, which logs it and returns —
it does not touch `errors_encountered`. -/
def run_handler (k : TaskKind) (outcome : HandlerOutcome) (s : CycleState) :
    CycleState :=
  { s with
    ran := s.ran ++ [k],
    error_log := s.error_log ++ (match outcome with
      | .raises => [k]
      | .ok => []) }

/-- Embedding of `MacroController.execute_macro_cycle`: run each enabled
handler once, in priority order. -/
def execute_macro_cycle (cfg : MacroConfig) (body_outcome : TaskKind → HandlerOutcome)
    (s : CycleState) : CycleState :=
  cycle_order.foldl
    (fun s k => if task_enabled cfg k then run_handler k (body_outcome k) s else s) s

/-- Characterization of the handler fold over an arbitrary task list:
every enabled handler runs (regardless of earlier failures), every enabled
raising handler is logged, and `errors_encountered` is never changed. -/
theorem cycle_foldl_spec (cfg : MacroConfig) (body_outcome : TaskKind → HandlerOutcome) :
    ∀ (l : List TaskKind) (s : CycleState),
      (l.foldl (fun s k =>
          if task_enabled cfg k then run_handler k (body_outcome k) s else s) s) =
        { ran := s.ran ++ l.filter (task_enabled cfg),
          error_log := s.error_log ++ (l.filter (task_enabled cfg)).filter
            (fun k => body_outcome k = .raises),
          errors_encountered := s.errors_encountered } := by
  intro l
  induction l with
  | nil => intro s; simp
  | cons k rest ih =>
    intro s
    rw [List.foldl_cons]
    by_cases hk : task_enabled cfg k
    · rw [if_pos hk, ih]
      cases houtcome : body_outcome k with
      | ok =>
        simp [run_handler, List.filter_cons, hk, houtcome]
      | raises =>
        simp [run_handler, List.filter_cons, hk, houtcome]
    · rw [if_neg hk, ih]
      simp [List.filter_cons, hk]

/-- C1 (amended): when a task handler's body throws during a cycle, the
failure is caught and logged inside the handler itself and the cycle
continues — every remaining enabled handler still runs — but
`errors_encountered` is NOT incremented for handler-level failures: the
cycle leaves the counter unchanged.  (The counter is incremented only by the
main loop's own `except` block, for exceptions that escape the cycle outside
the handlers' wrappers.) -/
theorem C1_handler_failure_logged_not_counted (cfg : MacroConfig)
    (body_outcome : TaskKind → HandlerOutcome) (s : CycleState) :
    (execute_macro_cycle cfg body_outcome s).errors_encountered =
      s.errors_encountered ∧
    (execute_macro_cycle cfg body_outcome s).ran =
      s.ran ++ cycle_order.filter (task_enabled cfg) ∧
    (execute_macro_cycle cfg body_outcome s).error_log =
      s.error_log ++ (cycle_order.filter (task_enabled cfg)).filter
        (fun k => body_outcome k = .raises) := by
  rw [execute_macro_cycle, cycle_foldl_spec]
  exact ⟨rfl, rfl, rfl⟩

/-- Configuration with every feature section enabled. -/
def all_enabled_config : MacroConfig := ⟨true, true, true, true, true⟩

/-- A cycle in which the quest handler's body raises and every other handler
body succeeds. -/
def quests_raise : TaskKind → HandlerOutcome
  | .quests => .raises
  | _ => .ok

/-- The orchestrator state at the start of the cycle: nothing run, nothing
logged, no errors recorded. -/
def fresh_cycle_state : CycleState := ⟨[], [], 0⟩

/-- Counterexample to C1 as stated: with all features enabled and the quest
handler throwing, the failure is logged and the cycle continues through all
six handlers, but `session_stats['errors_encountered']` stays 0 — it is not
incremented by one as the claim asserts. -/
theorem C1_counterexample :
    (execute_macro_cycle all_enabled_config quests_raise fresh_cycle_state).error_log =
      [.quests] ∧
    (execute_macro_cycle all_enabled_config quests_raise fresh_cycle_state).ran =
      cycle_order ∧
    (execute_macro_cycle all_enabled_config quests_raise
        fresh_cycle_state).errors_encountered = 0 ∧
    (execute_macro_cycle all_enabled_config quests_raise
        fresh_cycle_state).errors_encountered ≠
      fresh_cycle_state.errors_encountered + 1 :=
  ⟨by decide, by decide, by decide, by decide⟩

/-- Outcome of one main-loop iteration body in `MacroController.run`: either
it completes, or an exception escapes to the loop-level `except` handler (a
recorded recoverable failure). -/
inductive IterationOutcome
  | completes
  | recoverable_failure
deriving DecidableEq

/-- How a run of the main loop ended: it ran through all iterations, or it
broke out because too many errors were encountered. -/
inductive LoopExit
  | finished (errors_encountered : ℕ)
  | too_many_errors (errors_encountered : ℕ)
deriving DecidableEq

/-- The hard-coded error budget of `MacroController.run`: the loop breaks
when `errors_encountered > 10`. -/
def error_budget : ℕ := 10

/-- Embedding of the error-handling skeleton of the `while` loop in
`MacroController.run`: iterations are processed in order; a recoverable
failure increments `errors_encountered`, and the loop breaks exactly when
the counter exceeds `error_budget`. -/
def run_loop (errors_encountered : ℕ) : List IterationOutcome → LoopExit
  | [] => .finished errors_encountered
  | .completes :: rest => run_loop errors_encountered rest
  | .recoverable_failure :: rest =>
    if errors_encountered + 1 > error_budget then
      .too_many_errors (errors_encountered + 1)
    else run_loop (errors_encountered + 1) rest

/-- Consuming `n` recoverable failures keeps the loop running while the
counter stays within the budget. -/
theorem run_loop_replicate (n : ℕ) :
    ∀ (e : ℕ) (rest : List IterationOutcome), e + n ≤ error_budget →
      run_loop e (List.replicate n .recoverable_failure ++ rest) =
        run_loop (e + n) rest := by
  induction n with
  | zero => intro e rest _; simp
  | succ m ih =>
    intro e rest he
    rw [List.replicate_succ, List.cons_append, run_loop,
      if_neg (by simp only [error_budget] at he ⊢; omega)]
    have h := ih (e + 1) rest (by omega)
    rw [h]
    congr 1
    omega

/-- C2: after exactly 10 recorded recoverable failures the main loop is
still running — it continues with the remaining iterations and the counter
at 10 — and the failure that makes `errors_encountered` exceed the budget
halts the loop immediately, whatever iterations would have followed. -/
theorem C2_error_budget_halt :
    (∀ rest : List IterationOutcome,
      run_loop 0 (List.replicate 10 .recoverable_failure ++ rest) =
        run_loop 10 rest) ∧
    (∀ rest : List IterationOutcome,
      run_loop 0 (List.replicate 11 .recoverable_failure ++ rest) =
        .too_many_errors 11) := by
  constructor
  · intro rest
    simpa using run_loop_replicate 10 0 rest (by norm_num [error_budget])
  · intro rest
    have h1 : List.replicate 11 IterationOutcome.recoverable_failure =
        List.replicate 10 IterationOutcome.recoverable_failure ++
          [IterationOutcome.recoverable_failure] := by
      rw [← List.replicate_succ']
  
    rw [h1, List.append_assoc]
    rw [run_loop_replicate 10 0 _ (by norm_num [error_budget])]
    rw [List.cons_append, run_loop, if_pos (by norm_num [error_budget])]

/-! ## Session Statistics Ledger (`main_controller.py`,
`MacroController.get_session_stats`) -/

/-- Python `int()` applied to a rational: truncation toward zero. -/
def pyInt (x : ℚ) : ℤ := if 0 ≤ x then ⌊x⌋ else ⌈x⌉

/-- The derived-rate keys of the stats snapshot; `none` means the key is
absent from the returned map. -/
structure SessionRates where
  pollen_per_hour : Option ℤ
  honey_per_hour : Option ℤ
  quests_per_hour : Option ℚ
deriving DecidableEq

/-- Embedding of the rate computation in `MacroController.get_session_stats`:
the three rate keys are added only when `runtime > 0`; `pollen_per_hour` and
`honey_per_hour` pass through Python `int(...)`, while `quests_per_hour` is
the plain float division. -/
def get_session_stats (runtime pollen_collected honey_made quests_completed : ℚ) :
    SessionRates :=
  if 0 < runtime then
    { pollen_per_hour := some (pyInt (pollen_collected / (runtime / 3600))),
      honey_per_hour := some (pyInt (honey_made / (runtime / 3600))),
      quests_per_hour := some (quests_completed / (runtime / 3600)) }
  else
    { pollen_per_hour := none, honey_per_hour := none, quests_per_hour := none }

/-- C9 (amended): rates are computed only when elapsed runtime is strictly
positive, so no division by zero occurs; when computed, `quests_per_hour`
equals the total divided by `(elapsed seconds / 3600)` exactly, while the
pollen and honey rates are the integer truncation of that quotient (for
nonnegative totals, the reported integer `p` satisfies
`p ≤ total/(elapsed/3600) < p + 1`); at zero elapsed time no rate is
present. -/
theorem C9_session_rates (runtime pollen honey quests : ℚ)
    (hr : 0 < runtime) (hp : 0 ≤ pollen) (hh : 0 ≤ honey) :
    (∃ p : ℤ,
      (get_session_stats runtime pollen honey quests).pollen_per_hour = some p ∧
      (p : ℚ) ≤ pollen / (runtime / 3600) ∧ pollen / (runtime / 3600) < p + 1) ∧
    (∃ q : ℤ,
      (get_session_stats runtime pollen honey quests).honey_per_hour = some q ∧
      (q : ℚ) ≤ honey / (runtime / 3600) ∧ honey / (runtime / 3600) < q + 1) ∧
    (get_session_stats runtime pollen honey quests).quests_per_hour =
      some (quests / (runtime / 3600)) ∧
    get_session_stats 0 pollen honey quests =
      { pollen_per_hour := none, honey_per_hour := none,
        quests_per_hour := none } := by
  have h36 : 0 < runtime / 3600 := by positivity
  have hxp : 0 ≤ pollen / (runtime / 3600) := by positivity
  have hxh : 0 ≤ honey / (runtime / 3600) := by positivity
  refine ⟨⟨⌊pollen / (runtime / 3600)⌋, ?_, Int.floor_le _, ?_⟩,
    ⟨⌊honey / (runtime / 3600)⌋, ?_, Int.floor_le _, ?_⟩, ?_, ?_⟩
  · rw [get_session_stats, if_pos hr]
    dsimp only
    rw [pyInt, if_pos hxp]
  · have h := Int.lt_floor_add_one (pollen / (runtime / 3600))
    push_cast at h ⊢
    linarith
  · rw [get_session_stats, if_pos hr]
    dsimp only
    rw [pyInt, if_pos hxh]
  · have h := Int.lt_floor_add_one (honey / (runtime / 3600))
    push_cast at h ⊢
    linarith
  · rw [get_session_stats, if_pos hr]
  · rw [get_session_stats, if_neg (by norm_num)]

/-- Witness for C9 at runtime 3600 s, 2 pollen, 0 honey, 1 quest. -/
theorem C9_session_rates_witness :
    (0:ℚ) < 3600 ∧ (0:ℚ) ≤ 2 ∧ (0:ℚ) ≤ 0 ∧
    (get_session_stats 3600 2 0 1).quests_per_hour =
      some (1 / ((3600:ℚ) / 3600)) :=
  ⟨by norm_num, by norm_num, by norm_num,
   (C9_session_rates 3600 2 0 1 (by norm_num) (by norm_num) (by norm_num)).2.2.1⟩

/-- Counterexample to C9 as stated: at runtime 7200 s with 1 pollen
collected, the snapshot reports `pollen_per_hour = int(0.5) = 0`, which does
not equal the exact quotient `1 / (7200/3600) = 1/2`. -/
theorem C9_counterexample :
    (get_session_stats 7200 1 0 0).pollen_per_hour.map (fun z => (z : ℚ)) ≠
      some (1 / ((7200 : ℚ) / 3600)) := by
  norm_num [get_session_stats, pyInt]
